import Mathlib

/-!
Shallow embedding of the test-harness core of `cocotb_mips32/processor_test.py`
(class `MIPS32ProcessorTest`): the memory-image parser `memload_from_str`, the
`clock` co-routine and the state recorder `saveState`, the memory models
`read_inst_mem` / `read_data_mem` / `write_data_mem`, the assertion helper
`assertMemEqual`, the `init_processor` sequence, the `randomized_regs` helper
and the result-recording wrapper built by `register_test`.

Python text is modelled as `String` / `List Char`, Python `dict`s keyed by
integers as association lists with last-write-wins insertion, and raised
exceptions as `Except PyErr`.
-/

/-- Python exception classes raised by the embedded code paths. -/
inductive PyErr where
  | typeError
  | indexError
  | valueError
  | keyError
  | assertionError
  deriving DecidableEq

/-- Lookup in a Python dict keyed by integers, modelled as an association
list: `d[a]` when `a in d` (`none` when the key is absent). -/
def dlookup : List (Nat × Nat) → Nat → Option Nat
  | [], _ => none
  | (k, v) :: rest, a => if k = a then some v else dlookup rest a

/-- Python dict item assignment `d[k] = v`: replaces the value of an
existing key, otherwise adds the binding. -/
def dinsert : List (Nat × Nat) → Nat → Nat → List (Nat × Nat)
  | [], k, v => [(k, v)]
  | (k0, v0) :: rest, k, v =>
      if k0 = k then (k, v) :: rest else (k0, v0) :: dinsert rest k v

theorem dlookup_dinsert_self (d : List (Nat × Nat)) (k v : Nat) :
    dlookup (dinsert d k v) k = some v := by
  induction d with
  | nil => simp [dinsert, dlookup]
  | cons hd tl ih =>
      obtain ⟨k0, v0⟩ := hd
      by_cases h : k0 = k
      · simp [dinsert, h, dlookup]
      · simp [dinsert, h, dlookup, ih]

/-- Python `text.split(sep)` for a one-character separator (the source only
splits on `"\n"` and `"\t"`): splitting the empty text yields `[[]]`, a
trailing separator yields a trailing empty piece, and pieces are never
merged. -/
def splitOnChar (sep : Char) : List Char → List (List Char)
  | [] => [[]]
  | c :: cs =>
      let r := splitOnChar sep cs
      if c = sep then [] :: r
      else
        match r with
        | [] => [[c]]
        | h :: t => (c :: h) :: t

/-- Value of one hexadecimal digit (`0`-`9`, `a`-`f`, `A`-`F`). -/
def hexDigitVal (c : Char) : Option Nat :=
  if '0' ≤ c ∧ c ≤ '9' then some (c.toNat - '0'.toNat)
  else if 'a' ≤ c ∧ c ≤ 'f' then some (c.toNat - 'a'.toNat + 10)
  else if 'A' ≤ c ∧ c ≤ 'F' then some (c.toNat - 'A'.toNat + 10)
  else none

/-- Accumulating base-16 evaluation of a digit list; `none` at the first
character that is not a hexadecimal digit. -/
def hexAcc : List Char → Nat → Option Nat
  | [], acc => some acc
  | c :: cs, acc =>
      match hexDigitVal c with
      | some d => hexAcc cs (16 * acc + d)
      | none => none

/-- Python `int(s, base=16)` as applied to a field of a memory-image line: an
optional `0x`/`0X` prefix followed by at least one hexadecimal digit; `none`
models the `ValueError` Python raises on anything else. (The optional sign,
surrounding whitespace and underscore separators Python would also accept do
not occur inside the tab-separated fields this is applied to and are not
modelled.) -/
def int16 (s : List Char) : Option Nat :=
  match s with
  | [] => none
  | '0' :: c :: rest =>
      if c = 'x' ∨ c = 'X' then
        match rest with
        | [] => none
        | _ => hexAcc rest 0
      else hexAcc ('0' :: c :: rest) 0
  | l => hexAcc l 0

/-- One iteration of the line loop of `memload_from_str`
(`processor_test.py` lines 177-186): `line[0]` raises `IndexError` on an
empty line; a line starting with `#` is skipped; the line is split on tabs
and, when that yields exactly two pieces,
`res[int(pieces[0], base=16)] = int(pieces[1], base=16)` is performed
(raising `ValueError` if a piece is not a hexadecimal numeral); any other
piece count leaves `res` unchanged. -/
def memload_line (res : List (Nat × Nat)) (line : List Char) :
    Except PyErr (List (Nat × Nat)) :=
  match line with
  | [] => Except.error PyErr.indexError
  | c :: _ =>
      if c = '#' then Except.ok res
      else
        match splitOnChar '\t' line with
        | [a, b] =>
            match int16 a, int16 b with
            | some k, some v => Except.ok (dinsert res k v)
            | _, _ => Except.error PyErr.valueError
        | _ => Except.ok res

/-- The loop of `memload_from_str` over `str.split("\n")`, threading the
dict and propagating the first raised exception. -/
def memload_lines : List (List Char) → List (Nat × Nat) →
    Except PyErr (List (Nat × Nat))
  | [], res => Except.ok res
  | line :: rest, res =>
      match memload_line res line with
      | Except.ok res2 => memload_lines rest res2
      | Except.error e => Except.error e

/-- `memload_from_str(self, str)`: split the text on newlines and run the
line loop starting from the empty dict `res = {}`. -/
def memload_from_str (s : String) : Except PyErr (List (Nat × Nat)) :=
  memload_lines (splitOnChar '\n' s.data) []

/-- Total description of the effect of one line that does not raise: a `#`
line and a line whose tab-field count differs from two leave the dict
unchanged, and a two-field line with hexadecimal fields stores
`address ↦ word`, overwriting any earlier binding of the address. -/
def memload_line_ok (res : List (Nat × Nat)) (line : List Char) :
    List (Nat × Nat) :=
  match line with
  | [] => res
  | c :: _ =>
      if c = '#' then res
      else
        match splitOnChar '\t' line with
        | [a, b] =>
            match int16 a, int16 b with
            | some k, some v => dinsert res k v
            | _, _ => res
        | _ => res

/-- A line on which `memload_from_str` does not raise: non-empty, and when
it is a non-comment line of exactly two tab-separated fields, both fields
are hexadecimal numerals. -/
def line_wf (line : List Char) : Bool :=
  match line with
  | [] => false
  | c :: _ =>
      if c = '#' then true
      else
        match splitOnChar '\t' line with
        | [a, b] => (int16 a).isSome && (int16 b).isSome
        | _ => true

theorem memload_line_of_wf (res : List (Nat × Nat)) (line : List Char)
    (h : line_wf line = true) :
    memload_line res line = Except.ok (memload_line_ok res line) := by
  cases line with
  | nil => simp [line_wf] at h
  | cons c tl =>
      by_cases hc : c = '#'
      · simp [memload_line, memload_line_ok, hc]
      · simp only [line_wf, if_neg hc] at h
        simp only [memload_line, memload_line_ok, if_neg hc]
        rcases hs : splitOnChar '\t' (c :: tl) with _ | ⟨a, rest⟩
        · rfl
        · rcases rest with _ | ⟨b, rest2⟩
          · rfl
          · rcases rest2 with _ | ⟨d, rest3⟩
            · rw [hs] at h
              simp only [Bool.and_eq_true, Option.isSome_iff_exists] at h
              obtain ⟨⟨k, hk⟩, ⟨v, hv⟩⟩ := h
              simp [hk, hv]
            · rfl

theorem memload_lines_of_wf (lines : List (List Char)) :
    ∀ res, (∀ l ∈ lines, line_wf l = true) →
      memload_lines lines res = Except.ok (lines.foldl memload_line_ok res) := by
  induction lines with
  | nil => intro res _; rfl
  | cons line rest ih =>
      intro res h
      have hline : line_wf line = true := h line (List.mem_cons_self line rest)
      have hrest : ∀ l ∈ rest, line_wf l = true :=
        fun l hl => h l (List.mem_cons_of_mem line hl)
      simp only [memload_lines, memload_line_of_wf res line hline, List.foldl_cons]
      exact ih (memload_line_ok res line) hrest

/-- `to_int(a, default=0)`: best-effort integer conversion of a signal value
(`none` models a value `int()` rejects, e.g. an undefined/high-impedance
bus), falling back to the default. -/
def to_int (a : Option Nat) (default : Nat) : Nat :=
  match a with
  | some v => v
  | none => default

/-- One snapshot appended by `saveState`: the clock line value and the tick
counter at capture time (the PC and register-file fields are opaque handles
of the unit under test and carry no harness state, so they are not part of
the embedded snapshot). -/
structure Snap where
  clk : Nat
  t : Nat
  deriving DecidableEq

/-- One emitted segment of the clock waveform: the value driven on
`uut.Clk` and the duration for which the coroutine holds it
(`await Timer(self.CLOCK_CYCLE // 2, units="ns")`). -/
structure Phase where
  clk : Nat
  dur : Nat
  deriving DecidableEq

/-- The harness state the `clock` coroutine touches: the clock line, the
tick counter `self.t`, the recorded trace `self.state` and the waveform
emitted so far. -/
structure ClockSt where
  clk : Nat
  t : Nat
  trace : List Snap
  phases : List Phase
  deriving DecidableEq

/-- `self.CLOCK_CYCLE = 2*(self.CLOCK_CYCLE // 2)`: the normalization the
`clock` coroutine applies to the configured period before its loop. -/
def normalized_clock_cycle (c : Nat) : Nat := 2 * (c / 2)

/-- The duration `Timer(self.CLOCK_CYCLE // 2)` actually waits for in each
phase, after the normalization (`processor_test.py` lines 53-66). -/
def half_period (c : Nat) : Nat := normalized_clock_cycle c / 2

/-- One iteration of the `while self.clock_ticking` loop of `clock`, with
`self.initialized` true (the `Running` regime): drive `Clk` low, wait one
half-period, `saveState()`, drive `Clk` high, wait one half-period,
`saveState()`, then `self.t += 1`. `saveState` appends
`{"clk": self.uut.Clk.value, "t": self.t, ...}`. -/
def clock_iter (half : Nat) (s : ClockSt) : ClockSt :=
  let s1 : ClockSt := { s with clk := 0, phases := s.phases ++ [⟨0, half⟩] }
  let s2 : ClockSt := { s1 with trace := s1.trace ++ [⟨s1.clk, s1.t⟩] }
  let s3 : ClockSt := { s2 with clk := 1, phases := s2.phases ++ [⟨1, half⟩] }
  let s4 : ClockSt := { s3 with trace := s3.trace ++ [⟨s3.clk, s3.t⟩] }
  { s4 with t := s4.t + 1 }

/-- The clock coroutine run for `n` full periods from the state
`init_processor` leaves on entering `Running`: `self.t = 0`,
`self.state = []`, `Clk` driven low by `reset_processor`. -/
def clock_run (half : Nat) : Nat → ClockSt
  | 0 => { clk := 0, t := 0, trace := [], phases := [] }
  | n + 1 => clock_iter half (clock_run half n)

/-- The trace the spec describes for `n` periods: per period `k`, one
snapshot on the falling-edge sync point (`clk = 0`) and one on the
rising-edge sync point (`clk = 1`), both carrying tick `k`. -/
def altTrace : Nat → List Snap
  | 0 => []
  | n + 1 => altTrace n ++ [⟨0, n⟩, ⟨1, n⟩]

/-- The waveform the spec describes for `n` periods: low for one
half-period, then high for one half-period, repeated. -/
def altPhases (half : Nat) : Nat → List Phase
  | 0 => []
  | n + 1 => altPhases half n ++ [⟨0, half⟩, ⟨1, half⟩]

theorem clock_iter_eq (half : Nat) (s : ClockSt) :
    clock_iter half s =
      ⟨1, s.t + 1, s.trace ++ [⟨0, s.t⟩, ⟨1, s.t⟩],
        s.phases ++ [⟨0, half⟩, ⟨1, half⟩]⟩ := by
  simp [clock_iter]

theorem clock_run_t (half : Nat) : ∀ n, (clock_run half n).t = n := by
  intro n
  induction n with
  | zero => rfl
  | succ n ih => simp [clock_run, clock_iter_eq, ih]

theorem clock_run_trace (half : Nat) :
    ∀ n, (clock_run half n).trace = altTrace n := by
  intro n
  induction n with
  | zero => rfl
  | succ n ih => simp [clock_run, clock_iter_eq, ih, altTrace, clock_run_t]

theorem clock_run_phases (half : Nat) :
    ∀ n, (clock_run half n).phases = altPhases half n := by
  intro n
  induction n with
  | zero => rfl
  | succ n ih => simp [clock_run, clock_iter_eq, ih, altPhases]

theorem altTrace_length : ∀ n, (altTrace n).length = 2 * n := by
  intro n
  induction n with
  | zero => rfl
  | succ n ih => simp [altTrace, ih]; omega

theorem altPhases_length (half : Nat) :
    ∀ n, (altPhases half n).length = 2 * n := by
  intro n
  induction n with
  | zero => rfl
  | succ n ih => simp [altPhases, ih]; omega

theorem altTrace_succ (n : Nat) :
    altTrace (n + 1) = altTrace n ++ [(⟨0, n⟩ : Snap), ⟨1, n⟩] := rfl

theorem altPhases_succ (half n : Nat) :
    altPhases half (n + 1) =
      altPhases half n ++ [(⟨0, half⟩ : Phase), ⟨1, half⟩] := rfl

theorem altTrace_getLast? (n : Nat) :
    (altTrace (n + 1)).getLast? = some ⟨1, n⟩ := by
  rw [altTrace_succ,
    show altTrace n ++ [(⟨0, n⟩ : Snap), ⟨1, n⟩] =
      (altTrace n ++ [(⟨0, n⟩ : Snap)]) ++ [(⟨1, n⟩ : Snap)] by simp]
  exact List.getLast?_concat _

theorem altPhases_getLast? (half n : Nat) :
    (altPhases half (n + 1)).getLast? = some ⟨1, half⟩ := by
  rw [altPhases_succ,
    show altPhases half n ++ [(⟨0, half⟩ : Phase), ⟨1, half⟩] =
      (altPhases half n ++ [(⟨0, half⟩ : Phase)]) ++ [(⟨1, half⟩ : Phase)] by
        simp]
  exact List.getLast?_concat _

theorem altTrace_chain'_le (n : Nat) :
    List.Chain' (fun a b => a.t ≤ b.t) (altTrace n) := by
  induction n with
  | zero => exact List.chain'_nil
  | succ n ih =>
      rw [altTrace_succ, List.chain'_append]
      refine ⟨ih, by simp, ?_⟩
      intro x hx y hy
      cases n with
      | zero => simp [altTrace] at hx
      | succ m =>
          rw [altTrace_getLast? m] at hx
          simp at hx hy
          subst hx
          subst hy
          simp

theorem altPhases_chain'_ne (half n : Nat) :
    List.Chain' (fun p q => p.clk ≠ q.clk) (altPhases half n) := by
  induction n with
  | zero => exact List.chain'_nil
  | succ n ih =>
      rw [altPhases_succ, List.chain'_append]
      refine ⟨ih, by simp, ?_⟩
      intro x hx y hy
      cases n with
      | zero => simp [altPhases] at hx
      | succ m =>
          rw [altPhases_getLast? half m] at hx
          simp at hx hy
          subst hx
          subst hy
          simp

theorem altTrace_countP_ge (k n : Nat) (hk : n ≤ k) :
    (altTrace n).countP (fun sn => sn.t == k) = 0 := by
  induction n with
  | zero => rfl
  | succ n ih =>
      rw [altTrace_succ, List.countP_append, ih (by omega)]
      simp [List.countP_cons]
      omega

theorem altTrace_countP_lt (k n : Nat) (hk : k < n) :
    (altTrace n).countP (fun sn => sn.t == k) = 2 := by
  induction n with
  | zero => omega
  | succ n ih =>
      rw [altTrace_succ, List.countP_append]
      by_cases h : k < n
      · rw [ih h]
        simp [List.countP_cons]
        omega
      · have hkn : k = n := by omega
        subst hkn
        rw [altTrace_countP_ge k k (le_refl k)]
        simp [List.countP_cons]

theorem altPhases_dur (half n : Nat) :
    ∀ p ∈ altPhases half n, p.dur = half := by
  induction n with
  | zero => intro p hp; simp [altPhases] at hp
  | succ n ih =>
      intro p hp
      rw [altPhases_succ] at hp
      rcases List.mem_append.mp hp with h | h
      · exact ih p h
      · simp at h
        rcases h with h | h <;> simp [h]

/-- The value `read_inst_mem` drives onto `uut.IDataIn` each time it wakes
(`processor_test.py` lines 76-84): `address = to_int(uut.IAddr.value)`,
then 0 when `address not in self.instructions`, else
`self.instructions[address]`. -/
def read_inst_mem_drive (instructions : List (Nat × Nat))
    (iaddr : Option Nat) : Nat :=
  match dlookup instructions (to_int iaddr 0) with
  | none => 0
  | some v => v

/-- The value `read_data_mem` drives onto `uut.DDataIn` each time it wakes
(`processor_test.py` lines 86-94): `address = to_int(uut.DAddr.value)`,
then 0 when `address not in self.data`, else `self.data[address]`. -/
def read_data_mem_drive (data : List (Nat × Nat)) (daddr : Option Nat) : Nat :=
  match dlookup data (to_int daddr 0) with
  | none => 0
  | some v => v

/-- `true_val = self.data[dir] if dir in self.data else 0` inside
`assertMemEqual`. -/
def mem_true_val (data : List (Nat × Nat)) (dir : Nat) : Nat :=
  match dlookup data dir with
  | none => 0
  | some v => v

/-- `assertMemEqual(self, dir, val)`: `assert (true_val == val)`, raising
`AssertionError` when the comparison fails. -/
def assertMemEqual (data : List (Nat × Nat)) (dir val : Nat) :
    Except PyErr Unit :=
  if mem_true_val data dir = val then Except.ok ()
  else Except.error PyErr.assertionError

/-- The signal lines `write_data_mem` samples right after one rising clock
edge: `uut.DWrEn.value`, `to_int(uut.DAddr.value)` and
`int(uut.DDataOut.value)`. -/
structure WriteEvent where
  dWrEn : Nat
  dAddr : Nat
  dDataOut : Nat
  deriving DecidableEq

/-- One iteration of the `write_data_mem` loop (`processor_test.py` lines
96-102): after `await RisingEdge(uut.Clk)`, if `uut.DWrEn.value == 1` then
`self.data[address] = int(uut.DDataOut.value)`, else nothing. -/
def write_data_step (data : List (Nat × Nat)) (e : WriteEvent) :
    List (Nat × Nat) :=
  if e.dWrEn = 1 then dinsert data e.dAddr e.dDataOut else data

/-- `write_data_mem` run over the successive rising edges of a simulation,
each edge sampled as one `WriteEvent`. -/
def write_data_run (data : List (Nat × Nat)) (es : List WriteEvent) :
    List (Nat × Nat) :=
  es.foldl write_data_step data

/-- The per-test-case state `init_processor` touches: the `initialized`
flag, tick counter and state trace of the test object, the signal lines it
drives, and the list of background tasks forked with `cocotb.fork`. -/
structure TB where
  initialized : Bool
  t : Nat
  state : List Snap
  reset : Nat
  idataIn : Nat
  ddataIn : Nat
  clk : Nat
  forked : List String
  deriving DecidableEq

/-- `reset_processor(self, uut)`: drive `Reset` high and zero `IDataIn`,
`DDataIn` and `Clk`. -/
def reset_processor (s : TB) : TB :=
  { s with reset := 1, idataIn := 0, ddataIn := 0, clk := 0 }

/-- `init_processor(self, uut)` (`processor_test.py` lines 158-175): return
immediately when already initialized; otherwise reset the signals, wait one
cycle, re-assert `Reset`, fork the four background tasks, wait three
cycles, zero the tick counter, empty the state trace, de-assert `Reset` and
mark the test case initialized. The two `wait_cycles` awaits only let
simulation time pass and change none of the embedded state. -/
def init_processor (s : TB) : TB :=
  if s.initialized then s
  else
    let s1 : TB := reset_processor s
    let s2 : TB := { s1 with reset := 1 }
    let s3 : TB := { s2 with forked := s2.forked ++
      ["clock", "read_data_mem", "read_inst_mem", "write_data_mem"] }
    let s4 : TB := { s3 with t := 0, state := [] }
    let s5 : TB := { s4 with reset := 0 }
    { s5 with initialized := true }

/-- A call of the bound method `self.Regs` (`def Regs(self, uut)`,
`processor_test.py` lines 118-119): exactly one positional argument `uut`
must be supplied, any other arity raises `TypeError`; the returned
`uut.RegsMIPS.regs` handle is abstracted to `Unit`. -/
def Regs_call (args : List Unit) : Except PyErr Unit :=
  match args with
  | [_] => Except.ok ()
  | _ => Except.error PyErr.typeError

/-- The `for i in range(1, 32)` loop of `randomized_regs`
(`processor_test.py` lines 121-124). Each iteration first evaluates
`self.Regs()` — a call with no argument — and only on its success would
assign `self.Regs()[i].value = random.randint(...)`; `rnd` abstracts the
random draw. The pair returned is (the register writes performed, the
loop's outcome). -/
def randomized_regs_loop (rnd : Nat → Nat) :
    List Nat → List (Nat × Nat) → List (Nat × Nat) × Except PyErr Unit
  | [], writes => (writes, Except.ok ())
  | i :: rest, writes =>
      match Regs_call [] with
      | Except.error e => (writes, Except.error e)
      | Except.ok _ => randomized_regs_loop rnd rest (writes ++ [(i, rnd i)])

/-- `randomized_regs(self, uut, ...)`: the loop over registers 1..31
starting with no write performed. -/
def randomized_regs (rnd : Nat → Nat) :
    List (Nat × Nat) × Except PyErr Unit :=
  randomized_regs_loop rnd (List.range' 1 31) []

/-- Python values, as far as the wrapper of `register_test` manipulates
them: the builtin function object the module-level name `globals` denotes,
dictionaries, lists and strings. -/
inductive PyVal where
  | builtinFunc
  | pyDict (entries : List (String × PyVal))
  | pyList (elems : List PyVal)
  | pyStr (s : String)

/-- Association-list update for string-keyed Python dicts. -/
def assocSet : List (String × PyVal) → String → PyVal →
    List (String × PyVal)
  | [], k, v => [(k, v)]
  | (k0, v0) :: rest, k, v =>
      if k0 = k then (k, v) :: rest else (k0, v0) :: assocSet rest k v

/-- Association-list lookup for string-keyed Python dicts. -/
def assocGet : List (String × PyVal) → String → Option PyVal
  | [], _ => none
  | (k0, v0) :: rest, k => if k0 = k then some v0 else assocGet rest k

/-- Python item assignment `o[k] = v`: defined for dicts; on any object
without `__setitem__` — in particular a builtin function — it raises
`TypeError`. -/
def pySetItem (o : PyVal) (k : String) (v : PyVal) : Except PyErr PyVal :=
  match o with
  | PyVal.pyDict es => Except.ok (PyVal.pyDict (assocSet es k v))
  | _ => Except.error PyErr.typeError

/-- Python subscription `o[k]`: defined for dicts (`KeyError` on a missing
key); on any object without `__getitem__` — in particular a builtin
function — it raises `TypeError`. -/
def pyGetItem (o : PyVal) (k : String) : Except PyErr PyVal :=
  match o with
  | PyVal.pyDict es =>
      match assocGet es k with
      | some v => Except.ok v
      | none => Except.error PyErr.keyError
  | _ => Except.error PyErr.typeError

/-- `o.append(v)` on a Python list; `TypeError` on a non-list. -/
def pyAppend (o : PyVal) (v : PyVal) : Except PyErr PyVal :=
  match o with
  | PyVal.pyList xs => Except.ok (PyVal.pyList (xs ++ [v]))
  | _ => Except.error PyErr.typeError

/-- In the module scope of `processor_test.py` the bare name `globals`
denotes the builtin `globals` function itself (nothing ever shadows it),
not the dictionary a call `globals()` returns. -/
def globals_builtin : PyVal := PyVal.builtinFunc

/-- How one run of the test case's registered `main` procedure ended:
normally, with an `AssertionError`, or with any other exception. The
wrapper's `try`/`except` distinguishes exactly these three. -/
inductive MainOutcome where
  | ok
  | assertErr
  | otherErr
  deriving DecidableEq

/-- The `self.result` string the wrapper's `try`/`except` assigns
(`processor_test.py` lines 196-206): `"correct"` on normal completion,
`"error"` for an `AssertionError`, `"exec_error"` for any other
exception. -/
def classify : MainOutcome → String
  | MainOutcome.ok => "correct"
  | MainOutcome.assertErr => "error"
  | MainOutcome.otherErr => "exec_error"

/-- The recording steps the wrapper performs after the `try`/`except`:
`if "cocotb_result" not in globals():` (a call of the real `globals()`,
whose key list is `gkeys`), then the item assignment
`globals["cocotb_result"] = {"results": []}` — on the builtin function
object itself, not on the module dict — and then
`globals["cocotb_result"]["result"].append({...})` (the appended outcome
record is abstracted to an empty dict; its contents never matter because
the subscriptions fail first). -/
def wrapper_record (gkeys : List String) : Except PyErr Unit := do
  if "cocotb_result" ∈ gkeys then
    pure ()
  else do
    let _ ← pySetItem globals_builtin "cocotb_result"
      (PyVal.pyDict [("results", PyVal.pyList [])])
    pure ()
  let entry ← pyGetItem globals_builtin "cocotb_result"
  let lst ← pyGetItem entry "result"
  let _ ← pyAppend lst (PyVal.pyDict [])
  pure ()

/-- What escapes the wrapper to the caller: an exception raised by the
wrapper's own recording code, or the test's stored failure re-raised by the
final `raise self.error`. -/
inductive Raised where
  | uncaught (e : PyErr)
  | reRaised (o : MainOutcome)
  deriving DecidableEq

/-- Observable summary of one run of the wrapper `register_test` builds
(`processor_test.py` lines 196-228): the `self.result` string assigned,
whether the outcome was appended to the process-wide accumulator, whether
`results.json` was rewritten, whether `log_result` ran, and what was
raised to the caller. -/
structure WrapperRun where
  result : String
  recorded : Bool
  persisted : Bool
  logged : Bool
  raised : Option Raised
  deriving DecidableEq

/-- One run of the wrapper after `main` has finished with outcome `o`: the
classification assignments, then the recording steps; when those raise,
the exception propagates at once (nothing is persisted or logged and
`raise self.error` is never reached); when they succeed, `results.json` is
written, `log_result` runs, and the stored failure, if any, is
re-raised. -/
def run_wrapper (o : MainOutcome) (gkeys : List String) : WrapperRun :=
  match wrapper_record gkeys with
  | Except.error e =>
      { result := classify o, recorded := false, persisted := false,
        logged := false, raised := some (Raised.uncaught e) }
  | Except.ok _ =>
      { result := classify o, recorded := true, persisted := true,
        logged := true,
        raised :=
          match o with
          | MainOutcome.ok => none
          | o => some (Raised.reRaised o) }

/-- C1: the claim says every failure of the registered main procedure is
first captured, turned into a recorded outcome appended to the process-wide
accumulator and persisted, and only then re-raised. The code instead
subscript-assigns the builtin `globals` function itself
(`globals["cocotb_result"] = {...}` instead of `globals()[...]`), so for
every outcome of `main` and every state of the module's global dict the
wrapper raises `TypeError` inside the recording step: nothing is appended,
`results.json` is never written, `log_result` never runs, and the original
failure is never re-raised to the caller. -/
theorem c1_wrapper_raises_typeerror_before_persisting
    (o : MainOutcome) (gkeys : List String) :
    run_wrapper o gkeys =
      { result := classify o, recorded := false, persisted := false,
        logged := false,
        raised := some (Raised.uncaught PyErr.typeError) } := by
  have hrec : wrapper_record gkeys = Except.error PyErr.typeError := by
    unfold wrapper_record
    by_cases h : "cocotb_result" ∈ gkeys <;>
      simp [h, pySetItem, pyGetItem, globals_builtin, Bind.bind, Except.bind,
        Pure.pure, Except.pure]
  unfold run_wrapper
  rw [hrec]

/-- C2: the wrapper's `try`/`except` classifies every run of the main
procedure three ways — an `AssertionError` is recorded with the result
string `"error"` (the spec's "assertion failed" kind), any other exception
with `"exec_error"` (the spec's "execution error" kind), and normal
completion with `"correct"` (the passing kind) — and the recorded
`self.result` is exactly this classification. -/
theorem c2_result_classification (o : MainOutcome) (gkeys : List String) :
    (run_wrapper o gkeys).result = classify o ∧
    (classify o = "error" ↔ o = MainOutcome.assertErr) ∧
    (classify o = "exec_error" ↔ o = MainOutcome.otherErr) ∧
    (classify o = "correct" ↔ o = MainOutcome.ok) := by
  refine ⟨?_, ?_, ?_, ?_⟩
  · unfold run_wrapper
    cases hw : wrapper_record gkeys <;> rfl
  · cases o <;> decide
  · cases o <;> decide
  · cases o <;> decide

/-- C3 counterexample: the claim says the parser never raises, including on
texts containing empty lines; but on the empty text (whose single line is
empty) `line[0]` raises `IndexError`, so `memload_from_str` does not return
a mapping. -/
theorem c3_counterexample :
    memload_from_str "" = Except.error PyErr.indexError := rfl

/-- C3 (amended): for every input text all of whose lines are non-empty
(and whose non-comment two-field lines carry hexadecimal fields, which is
what "parsed as base-16" presupposes), `memload_from_str` returns a mapping
without raising, built line by line: a line starting with `#` is ignored, a
line with exactly two tab-separated fields is parsed as base-16 address
mapped to base-16 word, and a line with any other field count is silently
skipped. An empty line instead raises `IndexError` (and a non-hexadecimal
two-field line raises `ValueError`). -/
theorem c3_parser_total_on_wf_lines (s : String)
    (h : ∀ l ∈ splitOnChar '\n' s.data, line_wf l = true) :
    memload_from_str s =
      Except.ok ((splitOnChar '\n' s.data).foldl memload_line_ok []) :=
  memload_lines_of_wf (splitOnChar '\n' s.data) [] h

/-- C3 witness: a text with a comment line, a well-formed data line and a
three-field line parses to the mapping holding only `0x1A ↦ 0xFF`. -/
theorem c3_witness :
    memload_from_str "# note\n1A\tFF\n8\t2A\t0" =
      Except.ok ((splitOnChar '\n'
        "# note\n1A\tFF\n8\t2A\t0".data).foldl memload_line_ok []) :=
  c3_parser_total_on_wf_lines "# note\n1A\tFF\n8\t2A\t0" (by decide)

/-- C4 counterexample: the claim says the half-period actually used is
always even, and that for odd configured N it equals N-1. For the
configured period 10 the half-period used is 5, which is odd; for the odd
configured period 11 the half-period used is 5, not 10. -/
theorem c4_counterexample :
    half_period 10 = 5 ∧ ¬ Even (half_period 10) ∧
    half_period 11 = 5 ∧ half_period 11 ≠ 11 - 1 := by
  refine ⟨rfl, ?_, rfl, by decide⟩
  rw [show half_period 10 = 5 from rfl]
  decide

/-- C4 (amended): it is the full clock period, not the half-period, that is
normalized to an even value: `2*(CLOCK_CYCLE // 2)` is always even, the
normalized period is exactly twice the half-period used (so the waveform is
symmetric), the half-period used is the floor half of the configured value,
and for an odd configured value N the normalized full period is N-1. -/
theorem c4_normalized_period_even (c : Nat) :
    Even (normalized_clock_cycle c) ∧
    normalized_clock_cycle c = 2 * half_period c ∧
    half_period c = c / 2 ∧
    (c % 2 = 1 → normalized_clock_cycle c = c - 1) := by
  refine ⟨⟨c / 2, ?_⟩, ?_, ?_, ?_⟩ <;>
    simp only [half_period, normalized_clock_cycle] <;> omega

/-- C5 counterexample: the claim says snapshots are appended in strictly
increasing tick order; but after one full period in `Running` the trace
holds two snapshots both carrying tick 0 (the tick counter is incremented
only after the second snapshot of a period), so the tick order is not
strict. -/
theorem c5_counterexample :
    (clock_run 5 1).trace = [⟨0, 0⟩, ⟨1, 0⟩] ∧
    ¬ List.Chain' (fun a b => a.t < b.t) (clock_run 5 1).trace := by
  refine ⟨rfl, ?_⟩
  rw [show (clock_run 5 1).trace = [(⟨0, 0⟩ : Snap), ⟨1, 0⟩] from rfl]
  simp [List.chain'_cons]

/-- C5 (amended): once in `Running` the trace holds exactly two snapshots
per full clock period (`2n` snapshots after `n` periods, exactly two per
tick value below `n` and none at or beyond `n`), appended in non-decreasing
— not strictly increasing — tick order (the two snapshots of one period
share the tick), never overwritten (each period only appends its two
snapshots to the existing trace), and the trace is empty immediately upon
entering `Running`. -/
theorem c5_trace_two_snapshots_per_period (half n : Nat) :
    (clock_run half n).trace.length = 2 * n ∧
    List.Chain' (fun a b => a.t ≤ b.t) (clock_run half n).trace ∧
    (∀ k, k < n →
      (clock_run half n).trace.countP (fun sn => sn.t == k) = 2) ∧
    (∀ k, n ≤ k →
      (clock_run half n).trace.countP (fun sn => sn.t == k) = 0) ∧
    (clock_run half 0).trace = [] ∧
    (clock_run half (n + 1)).trace =
      (clock_run half n).trace ++ [⟨0, n⟩, ⟨1, n⟩] := by
  refine ⟨?_, ?_, ?_, ?_, rfl, ?_⟩
  · rw [clock_run_trace]; exact altTrace_length n
  · rw [clock_run_trace]; exact altTrace_chain'_le n
  · intro k hk; rw [clock_run_trace]; exact altTrace_countP_lt k n hk
  · intro k hk; rw [clock_run_trace]; exact altTrace_countP_ge k n hk
  · rw [clock_run_trace, clock_run_trace, altTrace_succ]

/-- C6: a word address absent from a MemoryImage reads as zero, never as an
error: `read_inst_mem` and `read_data_mem` drive the corresponding
data-input line to 0, and `assertMemEqual` likewise treats the absent
address as holding 0 (its assertion passes exactly for the expected value
0). -/
theorem c6_unmapped_reads_zero (mem : List (Nat × Nat)) (addr val : Nat)
    (h : dlookup mem addr = none) :
    read_inst_mem_drive mem (some addr) = 0 ∧
    read_data_mem_drive mem (some addr) = 0 ∧
    mem_true_val mem addr = 0 ∧
    (assertMemEqual mem addr val = Except.ok () ↔ val = 0) := by
  have h0 : to_int (some addr) 0 = addr := rfl
  have htv : mem_true_val mem addr = 0 := by unfold mem_true_val; rw [h]
  refine ⟨?_, ?_, htv, ?_⟩
  · unfold read_inst_mem_drive; rw [h0, h]
  · unfold read_data_mem_drive; rw [h0, h]
  · unfold assertMemEqual
    rw [htv]
    constructor
    · intro hok
      by_cases hv : (0 : Nat) = val
      · exact hv.symm
      · rw [if_neg hv] at hok
        exact absurd hok (by simp)
    · intro hv
      subst hv
      rfl

/-- C6 witness: in the image mapping only address 4, address 8 reads as 0
through both memory models and the memory-equality helper. -/
theorem c6_witness :
    read_inst_mem_drive [(4, 7)] (some 8) = 0 ∧
    read_data_mem_drive [(4, 7)] (some 8) = 0 ∧
    mem_true_val [(4, 7)] 8 = 0 ∧
    (assertMemEqual [(4, 7)] 8 0 = Except.ok () ↔ (0 : Nat) = 0) :=
  c6_unmapped_reads_zero [(4, 7)] 8 0 (by decide)

/-- C7: for every sequence of writes to the same address with write-enable
asserted on successive rising edges, the MemoryImage afterwards holds
exactly the final write's data value at that address: each write
overwrites any prior value, so last-write-wins whatever values came
before and whatever the image held initially. -/
theorem c7_last_write_wins (data : List (Nat × Nat)) (addr : Nat)
    (ds : List Nat) (d : Nat) :
    dlookup (write_data_run data
      ((ds ++ [d]).map fun x => ⟨1, addr, x⟩)) addr = some d := by
  induction ds generalizing data with
  | nil => exact dlookup_dinsert_self data addr d
  | cons e rest ih => exact ih (write_data_step data ⟨1, addr, e⟩)

/-- C8: calling `init_processor` on an already-initialized test case is a
no-op: the embedded state — initialized flag, tick counter, state trace,
all driven signal lines and the list of forked background tasks — is
returned unchanged, so no duplicate tasks are started and no second reset
pulse is driven. -/
theorem c8_init_idempotent (s : TB) (h : s.initialized = true) :
    init_processor s = s := by
  simp [init_processor, h]

/-- C8 witness: a second initialization call on a concrete initialized
state changes nothing. -/
theorem c8_witness :
    init_processor ⟨true, 2, [⟨0, 0⟩], 0, 0, 0, 1, ["clock"]⟩ =
      ⟨true, 2, [⟨0, 0⟩], 0, 0, 0, 1, ["clock"]⟩ :=
  c8_init_idempotent ⟨true, 2, [⟨0, 0⟩], 0, 0, 0, 1, ["clock"]⟩ rfl

/-- C9: while the clock task runs, the waveform after `n` full periods is
exactly `n` repetitions of (low for one half-period, high for one
half-period) — so the clock line alternates strictly 0,1,0,1,... with no
two consecutive phases at the same level, every phase lasts exactly the
normalized half-period of the configured value, and the tick counter has
been incremented exactly once per full period. -/
theorem c9_clock_waveform (c n : Nat) :
    (clock_run (half_period c) n).phases = altPhases (half_period c) n ∧
    (clock_run (half_period c) n).phases.length = 2 * n ∧
    List.Chain' (fun p q => p.clk ≠ q.clk)
      (clock_run (half_period c) n).phases ∧
    (∀ p ∈ (clock_run (half_period c) n).phases, p.dur = half_period c) ∧
    (clock_run (half_period c) n).t = n := by
  refine ⟨clock_run_phases _ n, ?_, ?_, ?_, clock_run_t _ n⟩
  · rw [clock_run_phases]; exact altPhases_length _ n
  · rw [clock_run_phases]; exact altPhases_chain'_ne _ n
  · rw [clock_run_phases]; exact altPhases_dur _ n

/-- C10: every invocation of `randomized_regs` evaluates `self.Regs()` — a
call of a method requiring the positional argument `uut` with no argument —
in its first loop iteration, so it raises `TypeError` having performed no
register write at all, whatever the random draws would have been: no
caller can set up a randomized register set through this method. -/
theorem c10_randomized_regs_raises (rnd : Nat → Nat) :
    randomized_regs rnd = ([], Except.error PyErr.typeError) := rfl
